import Mathlib

/-!
# LLMInference: session layer over an external text-generation engine

A shallow embedding of `src/LLMInference.cpp`.

* `std::string` is `String`; a `const char*` text is a `CString`, a string
  without an interior NUL, so that `strdup(s.c_str())` is the cut of `s` at
  its first NUL character.
  The characters of a `String` stand for the bytes of the text: the
  operations used (concatenation, comparison with literals, the cut at NUL)
  act alike on both.
* `int` values are `Int`; they are taken to stay inside the range of `int`
  (signed overflow has no defined behaviour to embed).
* The engine (llama.cpp) is external.  Its deterministic vocabulary functions
  and the context size are the fields of `Engine`; the results of one
  `llama_decode` / `llama_sampler_sample` pair are an `Outcome` handed to each
  `completionLoop` call.
* Calls into the engine and the allocation and release of batches are
  recorded in the ghost field `trace`; `allocs` numbers the allocations.
  The diagnostic printing to `std::cout` / `std::cerr` is left out.
-/

namespace LLM

/-! ## Texts -/

/-- The terminator of a C string. -/
def NUL : Char := Char.ofNat 0

/-- The text `std::string::c_str()` read as a C string: the text before the first NUL. -/
def c_str (s : String) : String :=
  String.mk (s.data.takeWhile (fun c => decide (c ≠ NUL)))

/-- A `const char*` text: no NUL inside. -/
def CString : Type := { s : String // NUL ∉ s.data }

instance : DecidableEq CString := by
  unfold CString; infer_instance

/-- The call `strdup(s.c_str())`: a fresh C string holding `s` up to its first NUL. -/
def strdup (s : String) : CString :=
  ⟨c_str s, fun h => by
    have h2 := List.mem_takeWhile_imp h
    simp at h2⟩

/-- The call `strcmp(a, b)`: zero when the two texts are equal, otherwise the sign of
their lexicographic comparison. -/
def strcmp (a : CString) (b : String) : Int :=
  if a.val = b then 0 else if a.val.data < b.data then -1 else 1

/-! ## Data -/

/-- The struct `llama_chat_message`: role and content, both C strings. -/
structure llama_chat_message where
  role : CString
  content : CString
deriving DecidableEq

/-- The struct `llama_batch`, with the arrays as lists.  `handle` is the identity of the
allocation made by `llama_batch_init`; it is `none` for the zero batch `{0}`,
whose array pointers are null. -/
structure llama_batch where
  n_tokens : Int
  token : List Int
  pos : List Int
  n_seq_id : List Int
  seq_id : List (List Int)
  logits : List Bool
  handle : Option Nat
deriving DecidableEq

/-- The batch `{0}`. -/
def llama_batch.zero : llama_batch :=
  { n_tokens := 0, token := [], pos := [], n_seq_id := [], seq_id := [],
    logits := [], handle := none }

/-- Calls that leave the session object. -/
inductive Event where
  | tokenize (prompt : String)
  | batch_init (id : Nat) (n_tokens_alloc : Nat)
  | batch_free (handle : Option Nat)
  | decode (batch : llama_batch)
  | sample
deriving DecidableEq

/-- The engine as seen from the session: context size (`llama_n_ctx`),
`common_tokenize`, `llama_vocab_is_eog` and `common_token_to_piece`. -/
structure Engine where
  n_ctx : Nat
  tokenize : String → List Int
  is_eog : Int → Bool
  token_to_piece : Int → String

/-- What the engine answers during one `completionLoop` call: the return
value of `llama_decode` and the token drawn by `llama_sampler_sample`. -/
structure Outcome where
  decode : Int
  sample : Int
deriving DecidableEq

/-- The members of `LLMInference` used by the session functions, with the
ghost fields `allocs` and `trace`. -/
structure LLMInference where
  _messages : List llama_chat_message
  _promptTokens : List Int
  _batch : llama_batch
  _currToken : Int
  _prevLen : Int
  _nCtxUsed : Int
  _response : String
  allocs : Nat
  trace : List Event
deriving DecidableEq

/-! ## Batches -/

/-- The call `llama_batch_init(n, 0, 1)`: arrays of `n` slots, `n_tokens = 0`. -/
def llama_batch_init (n : Nat) (id : Nat) : llama_batch :=
  { n_tokens := 0
    token := List.replicate n 0
    pos := List.replicate n 0
    n_seq_id := List.replicate n 0
    seq_id := List.replicate n []
    logits := List.replicate n false
    handle := some id }

/-- The statement `_batch = llama_batch_init(n, 0, 1);`: the member is
overwritten, whatever it held. -/
def assignNewBatch (n : Nat) (s : LLMInference) : LLMInference :=
  { s with
    _batch := llama_batch_init n s.allocs
    allocs := s.allocs + 1
    trace := s.trace ++ [Event.batch_init s.allocs n] }

/-- The call `llama_batch_free(_batch)`. -/
def freeBatch (s : LLMInference) : LLMInference :=
  { s with trace := s.trace ++ [Event.batch_free s._batch.handle] }

/-- One iteration of the filling loop of `startCompletion`, at index `i`. -/
def fillSlot (toks : List Int) (current_context_size : Int) (b : llama_batch)
    (i : Nat) : llama_batch :=
  { b with
    token := b.token.set i (toks.getD i 0)
    pos := b.pos.set i (current_context_size + (i : Int))
    seq_id := b.seq_id.set i [0]
    n_seq_id := b.n_seq_id.set i 1
    logits := b.logits.set i (decide ((i : Int) = (toks.length : Int) - 1)) }

/-- The loop `for (int i = 0; i < (int)_promptTokens.size(); i++)`. -/
def fillBatch (toks : List Int) (current_context_size : Int) (b : llama_batch) :
    llama_batch :=
  (List.range toks.length).foldl (fillSlot toks current_context_size) b

/-! ## The session functions -/

/-- The method `LLMInference::addChatMessage`. -/
def addChatMessage (content role : String) (s : LLMInference) : LLMInference :=
  let msg : llama_chat_message := { role := strdup role, content := strdup content }
  { s with _messages := s._messages ++ [msg] }

/-- One iteration of the prompt loop of `startCompletion`. -/
def appendMessage (prompt : String) (message : llama_chat_message) : String :=
  if strcmp message.role "system" = 0 then
    prompt ++ ("System: " ++ message.content.val ++ "\n\n")
  else if strcmp message.role "user" = 0 then
    prompt ++ ("User: " ++ message.content.val ++ "\n\n")
  else if strcmp message.role "assistant" = 0 then
    prompt ++ ("Assistant: " ++ message.content.val ++ "\n\n")
  else
    prompt

/-- The prompt built by `startCompletion` from the messages. -/
def buildPrompt (messages : List llama_chat_message) : String :=
  messages.foldl appendMessage "" ++ "Assistant: "

/-- The method `LLMInference::startCompletion`. -/
def startCompletion (e : Engine) (query : String) (s : LLMInference) : LLMInference :=
  let s := addChatMessage query "user" s
  let prompt := buildPrompt s._messages
  let s := { s with _promptTokens := e.tokenize prompt
                    trace := s.trace ++ [Event.tokenize prompt] }
  let s := assignNewBatch s._promptTokens.length s
  let current_context_size := s._nCtxUsed
  let s := { s with _batch := fillBatch s._promptTokens current_context_size s._batch }
  let s := { s with _batch := { s._batch with n_tokens := (s._promptTokens.length : Int) } }
  let s := { s with _nCtxUsed := current_context_size + (s._promptTokens.length : Int) }
  { s with _response := "" }

/-- The method `LLMInference::completionLoop`: the returned text, or the message of the
exception thrown, and the object afterwards. -/
def completionLoop (e : Engine) (o : Outcome) (s : LLMInference) :
    Except String String × LLMInference :=
  let contextSize : Int := (e.n_ctx : Int)
  if s._nCtxUsed ≥ contextSize - 1 then
    (Except.ok "[EOG]", addChatMessage s._response "assistant" s)
  else
    let s := { s with trace := s.trace ++ [Event.decode s._batch] }
    if o.decode < 0 then
      (Except.error "llama_decode() failed", s)
    else
      let s := { s with _currToken := o.sample, trace := s.trace ++ [Event.sample] }
      if e.is_eog s._currToken then
        (Except.ok "[EOG]", addChatMessage s._response "assistant" s)
      else
        let piece := e.token_to_piece s._currToken
        let s := { s with _response := s._response ++ piece }
        let s := freeBatch s
        let s := assignNewBatch 1 s
        let b := s._batch
        let b := { b with token := b.token.set 0 s._currToken }
        let b := { b with pos := b.pos.set 0 s._nCtxUsed }
        let b := { b with seq_id := b.seq_id.set 0 [0] }
        let b := { b with n_seq_id := b.n_seq_id.set 0 1 }
        let b := { b with logits := b.logits.set 0 true }
        let b := { b with n_tokens := 1 }
        let s := { s with _batch := b }
        let s := { s with _nCtxUsed := s._nCtxUsed + 1 }
        (Except.ok piece, s)

/-- The method `LLMInference::stopCompletion`. -/
def stopCompletion (s : LLMInference) : LLMInference :=
  if s._batch.n_tokens > 0 then
    let s := freeBatch s
    { s with _batch := llama_batch.zero }
  else
    s

/-- The method `LLMInference::loadModel`, from the point where model, context and
sampler exist: `model_ok` and `ctx_ok` say whether the engine returned a
model and a context. -/
def loadModel (model_ok ctx_ok : Bool) (s : LLMInference) : Except String LLMInference :=
  if !model_ok then Except.error "load_model() failed"
  else if !ctx_ok then Except.error "llama_init_from_model() returned null"
  else Except.ok { s with _messages := [], _prevLen := 0, _nCtxUsed := 0, _response := "" }

/-! ## Sequences of calls -/

/-- One call of the public interface. -/
inductive Call where
  | startCompletion (query : String)
  | completionLoop (o : Outcome)
  | stopCompletion
deriving DecidableEq

/-- The object after one call (an exception thrown by `completionLoop` leaves
the object as it was at the throw). -/
def call (e : Engine) (c : Call) (s : LLMInference) : LLMInference :=
  match c with
  | Call.startCompletion q => startCompletion e q s
  | Call.completionLoop o => (completionLoop e o s).2
  | Call.stopCompletion => stopCompletion s

/-- The object after a sequence of calls. -/
def calls (e : Engine) (cs : List Call) (s : LLMInference) : LLMInference :=
  cs.foldl (fun s c => call e c s) s

/-- Successive `completionLoop` calls, one per outcome: the values returned,
in call order, and the object afterwards. -/
def completionLoops (e : Engine) :
    List Outcome → LLMInference → List (Except String String) × LLMInference
  | [], s => ([], s)
  | o :: os, s =>
    let r := completionLoop e o s
    let rest := completionLoops e os r.2
    (r.1 :: rest.1, rest.2)

/-- A whole turn: `startCompletion`, then one `completionLoop` call per
outcome of `os`, then one more call with outcome `last`. -/
def turn (e : Engine) (q : String) (os : List Outcome) (last : Outcome)
    (s : LLMInference) : LLMInference :=
  (completionLoop e last (completionLoops e os (startCompletion e q s)).2).2

/-- The pieces of the sampled tokens of a run, in call order. -/
def pieces (e : Engine) (os : List Outcome) : List String :=
  os.map (fun o => e.token_to_piece o.sample)

/-- The context check at the head of `completionLoop` fires. -/
def contextExhausted (e : Engine) (s : LLMInference) : Prop :=
  s._nCtxUsed ≥ (e.n_ctx : Int) - 1

instance (e : Engine) (s : LLMInference) : Decidable (contextExhausted e s) := by
  unfold contextExhausted; infer_instance

/-- The call ends the turn: context exhausted, or decode succeeded and the
sampled token is an end-of-generation token. -/
def terminatesTurn (e : Engine) (o : Outcome) (s : LLMInference) : Prop :=
  contextExhausted e s ∨ (¬ o.decode < 0 ∧ e.is_eog o.sample = true)

instance (e : Engine) (o : Outcome) (s : LLMInference) :
    Decidable (terminatesTurn e o s) := by
  unfold terminatesTurn; infer_instance

/-- The call generates a piece: context not exhausted, decode succeeded and
the sampled token is not an end-of-generation token. -/
def generatesPiece (e : Engine) (o : Outcome) (s : LLMInference) : Prop :=
  ¬ contextExhausted e s ∧ ¬ o.decode < 0 ∧ e.is_eog o.sample = false

instance (e : Engine) (o : Outcome) (s : LLMInference) :
    Decidable (generatesPiece e o s) := by
  unfold generatesPiece; infer_instance

/-- Every call of the run generates a piece. -/
def generatingRun (e : Engine) : List Outcome → LLMInference → Prop
  | [], _ => True
  | o :: os, s => generatesPiece e o s ∧ generatingRun e os (completionLoop e o s).2

instance generatingRunDecidable (e : Engine) :
    (os : List Outcome) → (s : LLMInference) → Decidable (generatingRun e os s)
  | [], _ => isTrue trivial
  | o :: os, s =>
    have := generatingRunDecidable e os (completionLoop e o s).2
    by unfold generatingRun; infer_instance

/-- Identities handed out by `llama_batch_init`, in order. -/
def allocated (t : List Event) : List Nat :=
  t.filterMap (fun ev => match ev with
    | Event.batch_init id _ => some id
    | _ => none)

/-- Identities passed to `llama_batch_free`, in order (freeing the zero batch
releases nothing). -/
def freed (t : List Event) : List Nat :=
  t.filterMap (fun ev => match ev with
    | Event.batch_free (some id) => some id
    | _ => none)

/-- Batches allocated and not yet freed. -/
def liveBatches (t : List Event) : List Nat :=
  (allocated t).filter (fun id => decide (id ∉ freed t))

/-! ## The prompt format in the words of the specification -/

/-- Concatenation of a list of texts, in order. -/
def concatAll : List String → String
  | [] => ""
  | x :: xs => x ++ concatAll xs

/-- The role label of the specification, if the role is a recognised one. -/
def roleLabel (role : String) : Option String :=
  if role = "system" then some "System"
  else if role = "user" then some "User"
  else if role = "assistant" then some "Assistant"
  else none

/-- The text one message contributes to the prompt. -/
def formatMessage (m : llama_chat_message) : String :=
  match roleLabel m.role.val with
  | some label => label ++ ": " ++ m.content.val ++ "\n\n"
  | none => ""

/-- The prompt as the specification describes it. -/
def formatSpec (history : List llama_chat_message) : String :=
  concatAll (history.map formatMessage) ++ "Assistant: "

/-! ## Concrete engines and objects for the examples -/

/-- A one-character text. -/
def chr (n : Nat) : String := String.singleton (Char.ofNat n)

/-- An engine with one token per character: token `n` is the character with
code `n`, token `2` ends generation, token `1000` is rendered as the text
`[EOG]`. -/
def charEngine : Engine :=
  { n_ctx := 2048
    tokenize := fun p => p.data.map (fun c => (c.toNat : Int))
    is_eog := fun t => decide (t = 2)
    token_to_piece := fun t => if t = 1000 then "[EOG]" else chr t.toNat }

/-- An engine whose tokenizer returns no token. -/
def silentEngine : Engine := { charEngine with tokenize := fun _ => [] }

/-- The object before any call, its members taken as zero: nothing held,
counters zero, nothing recorded. -/
def fresh : LLMInference :=
  { _messages := [], _promptTokens := [], _batch := llama_batch.zero, _currToken := 0,
    _prevLen := 0, _nCtxUsed := 0, _response := "", allocs := 0, trace := [] }

/-- The object after a successful `loadModel`. -/
def loaded : LLMInference :=
  match loadModel true true fresh with
  | Except.ok s => s
  | Except.error _ => fresh

/-- The pairs (role, content) of a history, as plain texts. -/
def texts (ms : List llama_chat_message) : List (String × String) :=
  ms.map (fun m => (m.role.val, m.content.val))

/-! ## Facts about texts and the prompt loop -/

theorem c_str_no_nul (s : String) : NUL ∉ (c_str s).data := (strdup s).property

theorem c_str_eq_self (s : String) (h : NUL ∉ s.data) : c_str s = s := by
  unfold c_str
  have : s.data.takeWhile (fun c => decide (c ≠ NUL)) = s.data := by
    rw [List.takeWhile_eq_self_iff]
    intro c hc
    simp only [decide_eq_true_eq]
    intro hcn
    exact h (hcn ▸ hc)
  rw [this]

theorem strcmp_eq_zero (a : CString) (b : String) : strcmp a b = 0 ↔ a.val = b := by
  unfold strcmp
  by_cases h : a.val = b
  · simp [h]
  · simp only [h, if_false, iff_false]
    split <;> decide

theorem appendMessage_eq (p : String) (m : llama_chat_message) :
    appendMessage p m = p ++ formatMessage m := by
  unfold appendMessage formatMessage roleLabel
  simp only [strcmp_eq_zero]
  by_cases h1 : m.role.val = "system"
  · simp [h1]
  · by_cases h2 : m.role.val = "user"
    · simp [h1, h2]
    · by_cases h3 : m.role.val = "assistant"
      · simp [h1, h2, h3]
      · simp [h1, h2, h3]

theorem foldl_appendMessage (ms : List llama_chat_message) (p : String) :
    ms.foldl appendMessage p = p ++ concatAll (ms.map formatMessage) := by
  induction ms generalizing p with
  | nil => simp [concatAll]
  | cons m ms ih =>
    simp only [List.foldl_cons, List.map_cons, concatAll, ih, appendMessage_eq,
      String.append_assoc]

theorem buildPrompt_eq_formatSpec (ms : List llama_chat_message) :
    buildPrompt ms = formatSpec ms := by
  unfold buildPrompt formatSpec
  rw [foldl_appendMessage]
  simp

/-! ## Facts about one `completionLoop` call -/

theorem completionLoop_generates (e : Engine) (o : Outcome) (s : LLMInference)
    (h : generatesPiece e o s) :
    completionLoop e o s
      = (Except.ok (e.token_to_piece o.sample),
         { s with
           _currToken := o.sample
           _response := s._response ++ e.token_to_piece o.sample
           _batch :=
             { n_tokens := 1, token := [o.sample], pos := [s._nCtxUsed], n_seq_id := [1],
               seq_id := [[0]], logits := [true], handle := some s.allocs }
           _nCtxUsed := s._nCtxUsed + 1
           allocs := s.allocs + 1
           trace := s.trace ++ [Event.decode s._batch, Event.sample,
             Event.batch_free s._batch.handle, Event.batch_init s.allocs 1] }) := by
  obtain ⟨h1, h2, h3⟩ := h
  unfold contextExhausted at h1
  unfold completionLoop
  simp only [h1, h2, h3, if_false]
  simp [assignNewBatch, freeBatch, llama_batch_init]

theorem completionLoop_of_exhausted (e : Engine) (o : Outcome) (s : LLMInference)
    (h : s._nCtxUsed ≥ (e.n_ctx : Int) - 1) :
    completionLoop e o s
      = (Except.ok "[EOG]",
         { s with _messages := s._messages ++ [⟨strdup "assistant", strdup s._response⟩] }) := by
  unfold completionLoop
  simp only [h, if_true]
  rfl

theorem completionLoop_of_eog (e : Engine) (o : Outcome) (s : LLMInference)
    (hctx : ¬ s._nCtxUsed ≥ (e.n_ctx : Int) - 1) (hdec : ¬ o.decode < 0)
    (heog : e.is_eog o.sample = true) :
    completionLoop e o s
      = (Except.ok "[EOG]",
         { s with
           _currToken := o.sample
           _messages := s._messages ++ [⟨strdup "assistant", strdup s._response⟩]
           trace := s.trace ++ [Event.decode s._batch, Event.sample] }) := by
  unfold completionLoop
  simp only [hctx, hdec, heog, if_true, if_false]
  simp [addChatMessage]

theorem completionLoop_terminates (e : Engine) (o : Outcome) (s : LLMInference)
    (h : terminatesTurn e o s) :
    (completionLoop e o s).1 = Except.ok "[EOG]"
    ∧ (completionLoop e o s).2._messages
        = s._messages ++ [⟨strdup "assistant", strdup s._response⟩] := by
  by_cases h1 : s._nCtxUsed ≥ (e.n_ctx : Int) - 1
  · rw [completionLoop_of_exhausted e o s h1]
    exact ⟨rfl, rfl⟩
  · rcases h with h | ⟨h2, h3⟩
    · exact absurd h h1
    · rw [completionLoop_of_eog e o s h1 h2 h3]
      exact ⟨rfl, rfl⟩

theorem completionLoop_cases (e : Engine) (o : Outcome) (s : LLMInference) :
    terminatesTurn e o s ∨ generatesPiece e o s
      ∨ (¬ contextExhausted e s ∧ o.decode < 0) := by
  unfold terminatesTurn generatesPiece
  by_cases h1 : contextExhausted e s
  · exact Or.inl (Or.inl h1)
  · by_cases h2 : o.decode < 0
    · exact Or.inr (Or.inr ⟨h1, h2⟩)
    · cases h3 : e.is_eog o.sample
      · exact Or.inr (Or.inl ⟨h1, h2, rfl⟩)
      · exact Or.inl (Or.inr ⟨h2, rfl⟩)

theorem completionLoop_throws (e : Engine) (o : Outcome) (s : LLMInference)
    (h1 : ¬ contextExhausted e s) (h2 : o.decode < 0) :
    completionLoop e o s
      = (Except.error "llama_decode() failed",
         { s with trace := s.trace ++ [Event.decode s._batch] }) := by
  unfold contextExhausted at h1
  unfold completionLoop
  simp only [h1, h2, if_true, if_false]

/-! ## Facts about the filling loop of `startCompletion` -/

theorem startCompletion_messages (e : Engine) (q : String) (s : LLMInference) :
    (startCompletion e q s)._messages = s._messages ++ [⟨strdup "user", strdup q⟩] := rfl

/-- C1, as stated, fails: a query with a NUL character inside is not stored
whole; the message appended holds only the text before the NUL. -/
theorem startCompletion_cuts_query_at_nul :
    texts (startCompletion charEngine ("Hi" ++ chr 0 ++ "there") fresh)._messages
        = [("user", "Hi")]
      ∧ texts (startCompletion charEngine ("Hi" ++ chr 0 ++ "there") fresh)._messages
        ≠ [("user", "Hi" ++ chr 0 ++ "there")] := by
  constructor <;> decide

/-- C1 (amended): for every history and query `q`, `startCompletion` appends
exactly one message, of role `user` and content `q` cut at its first NUL
character (`q` itself when it has none), and the tokenizer is handed the
prompt of the specification for the new history (label, content and a blank line for each message of role system,
user or assistant, nothing for another role, then `Assistant: `); from the
empty history and `Hello` the history is `[(user, Hello)]` and the prompt is
`User: Hello\n\nAssistant: `. -/
theorem startCompletion_history_and_prompt (e : Engine) (q : String) (s : LLMInference) :
    (startCompletion e q s)._messages = s._messages ++ [⟨strdup "user", strdup q⟩]
    ∧ (strdup "user").val = "user"
    ∧ (strdup q).val = c_str q
    ∧ (NUL ∉ q.data → (strdup q).val = q)
    ∧ (startCompletion e q s)._promptTokens
        = e.tokenize (formatSpec (s._messages ++ [⟨strdup "user", strdup q⟩]))
    ∧ (startCompletion e q s).trace
        = s.trace ++
          [Event.tokenize (formatSpec (s._messages ++ [⟨strdup "user", strdup q⟩])),
           Event.batch_init s.allocs
             (e.tokenize (formatSpec (s._messages ++ [⟨strdup "user", strdup q⟩]))).length]
    ∧ texts (startCompletion e "Hello" { s with _messages := [] })._messages
        = [("user", "Hello")]
    ∧ (startCompletion e "Hello" { s with _messages := [] }).trace
        = s.trace ++
          [Event.tokenize "User: Hello\n\nAssistant: ",
           Event.batch_init s.allocs (e.tokenize "User: Hello\n\nAssistant: ").length] := by
  have hp : ∀ ms, buildPrompt ms = formatSpec ms := buildPrompt_eq_formatSpec
  have hello : buildPrompt [⟨strdup "user", strdup "Hello"⟩] = "User: Hello\n\nAssistant: " := by
    decide
  have htrace : ∀ (q : String) (s : LLMInference), (startCompletion e q s).trace
      = s.trace ++ [Event.tokenize (buildPrompt (s._messages ++ [⟨strdup "user", strdup q⟩])),
          Event.batch_init s.allocs
            (e.tokenize (buildPrompt (s._messages ++ [⟨strdup "user", strdup q⟩]))).length] := by
    intro q s
    show s.trace ++ [_] ++ [_] = _
    rw [List.append_assoc]
    rfl
  refine ⟨rfl, by decide, rfl, c_str_eq_self q, ?_, ?_, ?_, ?_⟩
  · rw [← hp]; rfl
  · rw [← hp]; exact htrace q s
  · show texts ([] ++ [⟨strdup "user", strdup "Hello"⟩]) = _
    decide
  · rw [htrace]
    show s.trace ++ [Event.tokenize (buildPrompt [⟨strdup "user", strdup "Hello"⟩]),
      Event.batch_init s.allocs
        (e.tokenize (buildPrompt [⟨strdup "user", strdup "Hello"⟩])).length] = _
    rw [hello]

theorem startCompletion_history_and_prompt_witness :
    NUL ∉ "Hello".data ∧ (strdup "Hello").val = "Hello" :=
  ⟨by decide,
    (startCompletion_history_and_prompt charEngine "Hello" loaded).2.2.2.1 (by decide)⟩

/-! ## C3: the context check -/

/-- C3, as stated, fails: with the context exhausted and a NUL character in
the accumulated response, the message appended holds only the text before the
NUL, not the accumulated response. -/
theorem completionLoop_exhausted_cuts_response_at_nul :
    texts (completionLoop charEngine ⟨0, 65⟩
        { fresh with _nCtxUsed := 2047, _response := "ab" ++ chr 0 ++ "cd" }).2._messages
      = [("assistant", "ab")]
    ∧ texts (completionLoop charEngine ⟨0, 65⟩
        { fresh with _nCtxUsed := 2047, _response := "ab" ++ chr 0 ++ "cd" }).2._messages
      ≠ [("assistant", "ab" ++ chr 0 ++ "cd")] := by
  constructor <;> decide

/-- C3 (amended): when ContextUsage is at least the context size minus one,
`completionLoop` returns `[EOG]` and changes the object only by appending one
message of role `assistant` whose content is the accumulated response cut at
its first NUL character (the whole response when it has none): no decode, no
sample, ContextUsage and the held batch unchanged. -/
theorem completionLoop_context_exhausted (e : Engine) (o : Outcome) (s : LLMInference)
    (h : s._nCtxUsed ≥ (e.n_ctx : Int) - 1) :
    completionLoop e o s
        = (Except.ok "[EOG]",
           { s with _messages := s._messages ++ [⟨strdup "assistant", strdup s._response⟩] })
    ∧ (strdup "assistant").val = "assistant"
    ∧ (strdup s._response).val = c_str s._response
    ∧ (NUL ∉ s._response.data → (strdup s._response).val = s._response)
    ∧ (completionLoop e o s).2.trace = s.trace
    ∧ (completionLoop e o s).2._nCtxUsed = s._nCtxUsed
    ∧ (completionLoop e o s).2._batch = s._batch := by
  have hc := completionLoop_of_exhausted e o s h
  refine ⟨hc, by decide, rfl, c_str_eq_self s._response, ?_, ?_, ?_⟩ <;> rw [hc]

theorem completionLoop_context_exhausted_witness :
    ({ fresh with _nCtxUsed := 2047, _response := "abc" } : LLMInference)._nCtxUsed
        ≥ (charEngine.n_ctx : Int) - 1
    ∧ NUL ∉ ({ fresh with _nCtxUsed := 2047, _response := "abc" } : LLMInference)._response.data
    ∧ (completionLoop charEngine ⟨0, 65⟩
        { fresh with _nCtxUsed := 2047, _response := "abc" }).1 = Except.ok "[EOG]"
    ∧ (strdup ({ fresh with _nCtxUsed := 2047, _response := "abc" }
        : LLMInference)._response).val = "abc" := by
  have h := completionLoop_context_exhausted charEngine ⟨0, 65⟩
    { fresh with _nCtxUsed := 2047, _response := "abc" } (by decide)
  refine ⟨by decide, by decide, ?_, h.2.2.2.1 (by decide)⟩
  rw [h.1]

/-! ## C4: an end-of-generation token -/

/-- C4, as stated, fails: after a turn ended by an end-of-generation token the
prompt batch is still held and has not been freed. -/
theorem completionLoop_eog_keeps_batch :
    (completionLoop charEngine ⟨0, 2⟩ (startCompletion charEngine "Hi" loaded)).1
        = Except.ok "[EOG]"
    ∧ (completionLoop charEngine ⟨0, 2⟩ (startCompletion charEngine "Hi" loaded)).2._batch.handle
        = some 0
    ∧ freed (completionLoop charEngine ⟨0, 2⟩ (startCompletion charEngine "Hi" loaded)).2.trace
        = []
    ∧ liveBatches
        (completionLoop charEngine ⟨0, 2⟩ (startCompletion charEngine "Hi" loaded)).2.trace
        = [0] := by
  refine ⟨rfl, ?_, ?_, ?_⟩ <;> decide

/-- C4 (amended): when the context is not exhausted, decode succeeds and the
sampled token is an end-of-generation token, `completionLoop` returns `[EOG]`,
appends the accumulated response (cut at its first NUL character, whole when
it has none) as a message of role `assistant`, and leaves the held batch as
it is: nothing is freed, no batch is built, ContextUsage is unchanged. -/
theorem completionLoop_end_of_generation (e : Engine) (o : Outcome) (s : LLMInference)
    (hctx : s._nCtxUsed < (e.n_ctx : Int) - 1) (hdec : 0 ≤ o.decode)
    (heog : e.is_eog o.sample = true) :
    completionLoop e o s
        = (Except.ok "[EOG]",
           { s with
             _currToken := o.sample
             _messages := s._messages ++ [⟨strdup "assistant", strdup s._response⟩]
             trace := s.trace ++ [Event.decode s._batch, Event.sample] })
    ∧ (NUL ∉ s._response.data → (strdup s._response).val = s._response)
    ∧ (completionLoop e o s).2._batch = s._batch
    ∧ freed (completionLoop e o s).2.trace = freed s.trace
    ∧ allocated (completionLoop e o s).2.trace = allocated s.trace
    ∧ (completionLoop e o s).2._nCtxUsed = s._nCtxUsed := by
  have hc := completionLoop_of_eog e o s (not_le.mpr hctx) (not_lt.mpr hdec) heog
  refine ⟨hc, c_str_eq_self s._response, ?_, ?_, ?_, ?_⟩ <;> rw [hc] <;>
    simp [freed, allocated]

theorem completionLoop_end_of_generation_witness :
    (startCompletion charEngine "Hi" loaded)._nCtxUsed < (charEngine.n_ctx : Int) - 1
    ∧ (0 : Int) ≤ (⟨0, 2⟩ : Outcome).decode
    ∧ charEngine.is_eog (⟨0, 2⟩ : Outcome).sample = true
    ∧ NUL ∉ (startCompletion charEngine "Hi" loaded)._response.data
    ∧ (strdup (startCompletion charEngine "Hi" loaded)._response).val
        = (startCompletion charEngine "Hi" loaded)._response
    ∧ (completionLoop charEngine ⟨0, 2⟩ (startCompletion charEngine "Hi" loaded)).2._batch
        = (startCompletion charEngine "Hi" loaded)._batch := by
  have h := completionLoop_end_of_generation charEngine ⟨0, 2⟩
    (startCompletion charEngine "Hi" loaded) (by decide) (by decide) (by decide)
  exact ⟨by decide, by decide, by decide, by decide, h.2.1 (by decide), h.2.2.1⟩

/-! ## C7: the sentinel -/

/-- C7, as stated, fails: when the piece of the sampled token is the text
`[EOG]`, a call that generates a piece and builds a step batch returns a value
equal to the sentinel, and the turn is not ended (no message is appended). -/
theorem completionLoop_piece_equal_to_sentinel :
    generatesPiece charEngine ⟨0, 1000⟩ (startCompletion charEngine "Hi" loaded)
    ∧ ¬ terminatesTurn charEngine ⟨0, 1000⟩ (startCompletion charEngine "Hi" loaded)
    ∧ (completionLoop charEngine ⟨0, 1000⟩ (startCompletion charEngine "Hi" loaded)).1
        = Except.ok "[EOG]"
    ∧ (completionLoop charEngine ⟨0, 1000⟩ (startCompletion charEngine "Hi" loaded)).2.trace.getLast?
        = some (Event.batch_init 1 1)
    ∧ (completionLoop charEngine ⟨0, 1000⟩ (startCompletion charEngine "Hi" loaded)).2._messages
        = (startCompletion charEngine "Hi" loaded)._messages := by
  refine ⟨by decide, by decide, rfl, by decide, by decide⟩

/-- C7 (amended): a `completionLoop` call returns the text `[EOG]` exactly
when it ended the turn (context exhausted or end-of-generation token sampled)
or it generated a piece whose text is itself `[EOG]`; a call that ends the
turn always returns `[EOG]`, and a call that generates a piece returns that
piece, whatever the engine answers. -/
theorem completionLoop_sentinel_iff (e : Engine) (o : Outcome) (s : LLMInference) :
    ((completionLoop e o s).1 = Except.ok "[EOG]"
      ↔ terminatesTurn e o s
        ∨ (generatesPiece e o s ∧ e.token_to_piece o.sample = "[EOG]"))
    ∧ ((completionLoop e o s).1 = Except.ok (e.token_to_piece o.sample)
        ∨ ¬ generatesPiece e o s) := by
  rcases completionLoop_cases e o s with h | h | ⟨h1, h2⟩
  · refine ⟨⟨fun _ => Or.inl h, fun _ => (completionLoop_terminates e o s h).1⟩, Or.inr ?_⟩
    intro hg
    rcases h with h | ⟨_, h⟩
    · exact hg.1 h
    · rw [hg.2.2] at h; exact Bool.noConfusion h
  · rw [completionLoop_generates e o s h]
    refine ⟨⟨fun hr => Or.inr ⟨h, ?_⟩, fun hr => ?_⟩, Or.inl rfl⟩
    · exact Except.ok.inj hr
    · rcases hr with hr | ⟨_, hr⟩
      · exfalso
        rcases hr with hr | ⟨_, hr⟩
        · exact h.1 hr
        · rw [h.2.2] at hr; exact Bool.noConfusion hr
      · show Except.ok _ = _
        rw [hr]
  · rw [completionLoop_throws e o s h1 h2]
    refine ⟨⟨fun hr => Except.noConfusion hr, fun hr => ?_⟩, Or.inr fun hg => hg.2.1 h2⟩
    exfalso
    rcases hr with hr | ⟨hr, _⟩
    · rcases hr with hr | ⟨hr, _⟩
      · exact h1 hr
      · exact hr h2
    · exact hr.2.1 h2

/-! ## C8: `stopCompletion` -/

/-- C8, as stated, fails: a held batch built from an empty token sequence has
`n_tokens = 0`; `stopCompletion` does not free it and it stays held. -/
theorem stopCompletion_keeps_empty_batch :
    (startCompletion silentEngine "Hi" loaded)._batch.handle = some 0
    ∧ (stopCompletion (startCompletion silentEngine "Hi" loaded))._batch.handle = some 0
    ∧ freed (stopCompletion (startCompletion silentEngine "Hi" loaded)).trace = []
    ∧ liveBatches (stopCompletion (startCompletion silentEngine "Hi" loaded)).trace = [0] := by
  refine ⟨?_, ?_, ?_, ?_⟩ <;> decide

/-- C8 (amended): `stopCompletion` leaves the chat history, the response
accumulator and ContextUsage unchanged; when the held batch has
`n_tokens > 0` it frees that batch once and holds the zero batch afterwards,
and otherwise (no batch, or a batch of zero tokens) it changes nothing and
frees nothing; a second call right after changes nothing and frees nothing. -/
theorem stopCompletion_effect (s : LLMInference) :
    (stopCompletion s)._messages = s._messages
    ∧ (stopCompletion s)._response = s._response
    ∧ (stopCompletion s)._nCtxUsed = s._nCtxUsed
    ∧ (if s._batch.n_tokens > 0 then
        stopCompletion s
          = { s with _batch := llama_batch.zero
                     trace := s.trace ++ [Event.batch_free s._batch.handle] }
       else stopCompletion s = s)
    ∧ stopCompletion (stopCompletion s) = stopCompletion s := by
  by_cases h : s._batch.n_tokens > 0
  · have hc : stopCompletion s
        = { s with _batch := llama_batch.zero
                   trace := s.trace ++ [Event.batch_free s._batch.handle] } := by
      unfold stopCompletion
      rw [if_pos h]
      rfl
    have hz : ¬ (llama_batch.zero.n_tokens > 0) := by decide
    rw [if_pos h, hc]
    refine ⟨rfl, rfl, rfl, rfl, ?_⟩
    unfold stopCompletion
    rw [if_neg hz]
  · have hc : stopCompletion s = s := by
      unfold stopCompletion
      rw [if_neg h]
    rw [if_neg h, hc]
    exact ⟨rfl, rfl, rfl, rfl, hc⟩

/-! ## C10: contents of the batches -/

theorem completionLoops_generating (e : Engine) (os : List Outcome) (s : LLMInference)
    (h : generatingRun e os s) :
    (completionLoops e os s).1 = (pieces e os).map Except.ok
    ∧ (completionLoops e os s).2._response = s._response ++ concatAll (pieces e os)
    ∧ (completionLoops e os s).2._messages = s._messages := by
  induction os generalizing s with
  | nil => exact ⟨rfl, by simp [completionLoops, pieces, concatAll], rfl⟩
  | cons o os ih =>
    obtain ⟨h1, h2⟩ := h
    have hstep := completionLoop_generates e o s h1
    obtain ⟨i1, i2, i3⟩ := ih (completionLoop e o s).2 h2
    refine ⟨?_, ?_, ?_⟩
    · show (completionLoop e o s).1 :: (completionLoops e os (completionLoop e o s).2).1 = _
      rw [i1, hstep]
      rfl
    · show (completionLoops e os (completionLoop e o s).2).2._response = _
      rw [i2, hstep]
      show s._response ++ e.token_to_piece o.sample ++ concatAll (pieces e os) = _
      rw [String.append_assoc]
      rfl
    · show (completionLoops e os (completionLoop e o s).2).2._messages = _
      rw [i3, hstep]

theorem turn_messages (e : Engine) (q : String) (os : List Outcome) (last : Outcome)
    (s : LLMInference)
    (hgen : generatingRun e os (startCompletion e q s))
    (hterm : terminatesTurn e last (completionLoops e os (startCompletion e q s)).2) :
    (turn e q os last s)._messages
      = s._messages ++ [⟨strdup "user", strdup q⟩,
          ⟨strdup "assistant", strdup (concatAll (pieces e os))⟩] := by
  obtain ⟨_, i2, i3⟩ := completionLoops_generating e os _ hgen
  unfold turn
  rw [(completionLoop_terminates e last _ hterm).2, i2, i3]
  show s._messages ++ [_] ++ [⟨strdup "assistant", strdup ("" ++ concatAll (pieces e os))⟩] = _
  rw [String.empty_append, List.append_assoc]
  rfl

/-- C2, as stated, fails.  First, the first call that returns `[EOG]` can be
a call that generated the piece `[EOG]`: it appends no message at all.
Second, when a piece holds a NUL character, the message appended by the call
that ends the turn holds only the text before it, not the concatenation of
the pieces returned. -/
theorem turn_response_not_concatenation :
    ((completionLoops charEngine [⟨0, 1000⟩] (startCompletion charEngine "Hi" loaded)).1
        = [Except.ok "[EOG]"]
      ∧ texts (completionLoops charEngine [⟨0, 1000⟩]
          (startCompletion charEngine "Hi" loaded)).2._messages = [("user", "Hi")])
    ∧ ((completionLoops charEngine [⟨0, 65⟩, ⟨0, 0⟩, ⟨0, 66⟩, ⟨0, 2⟩]
          (startCompletion charEngine "Hi" loaded)).1
        = [Except.ok "A", Except.ok (chr 0), Except.ok "B", Except.ok "[EOG]"]
      ∧ texts (turn charEngine "Hi" [⟨0, 65⟩, ⟨0, 0⟩, ⟨0, 66⟩] ⟨0, 2⟩ loaded)._messages
        = [("user", "Hi"), ("assistant", "A")]
      ∧ "A" ≠ concatAll ["A", chr 0, "B"]) := by
  refine ⟨⟨rfl, by decide⟩, rfl, by decide, by decide⟩

/-- C2 (amended): when `startCompletion(q)` is followed by `completionLoop`
calls that each generate a piece and then by a call that ends the turn
(context exhausted, or end-of-generation token sampled), the preceding calls
return their pieces in order, the last call returns `[EOG]` and the history
becomes the one after `startCompletion` followed by one message of role
`assistant` whose content is the concatenation, in call order, of exactly
those pieces, cut at its first NUL character (whole when it has none);
nothing accumulated before `startCompletion` enters it. -/
theorem turn_round_trip (e : Engine) (q : String) (os : List Outcome) (last : Outcome)
    (s : LLMInference)
    (hgen : generatingRun e os (startCompletion e q s))
    (hterm : terminatesTurn e last (completionLoops e os (startCompletion e q s)).2) :
    (completionLoops e os (startCompletion e q s)).1 = (pieces e os).map Except.ok
    ∧ (completionLoop e last (completionLoops e os (startCompletion e q s)).2).1
        = Except.ok "[EOG]"
    ∧ (turn e q os last s)._messages
        = (startCompletion e q s)._messages
          ++ [⟨strdup "assistant", strdup (concatAll (pieces e os))⟩]
    ∧ (strdup (concatAll (pieces e os))).val = c_str (concatAll (pieces e os))
    ∧ (NUL ∉ (concatAll (pieces e os)).data →
        (strdup (concatAll (pieces e os))).val = concatAll (pieces e os)) := by
  refine ⟨(completionLoops_generating e os _ hgen).1,
    (completionLoop_terminates e last _ hterm).1, ?_, rfl, c_str_eq_self _⟩
  rw [turn_messages e q os last s hgen hterm]
  show _ = s._messages ++ [_] ++ [_]
  rw [List.append_assoc]
  rfl

theorem turn_round_trip_witness :
    generatingRun charEngine [⟨0, 65⟩, ⟨0, 66⟩] (startCompletion charEngine "Hi" loaded)
    ∧ terminatesTurn charEngine ⟨0, 2⟩
        (completionLoops charEngine [⟨0, 65⟩, ⟨0, 66⟩]
          (startCompletion charEngine "Hi" loaded)).2
    ∧ NUL ∉ (concatAll (pieces charEngine [⟨0, 65⟩, ⟨0, 66⟩])).data
    ∧ (strdup (concatAll (pieces charEngine [⟨0, 65⟩, ⟨0, 66⟩]))).val
        = concatAll (pieces charEngine [⟨0, 65⟩, ⟨0, 66⟩])
    ∧ texts (turn charEngine "Hi" [⟨0, 65⟩, ⟨0, 66⟩] ⟨0, 2⟩ loaded)._messages
        = [("user", "Hi"), ("assistant", "AB")] := by
  have h := turn_round_trip charEngine "Hi" [⟨0, 65⟩, ⟨0, 66⟩] ⟨0, 2⟩ loaded
    (by decide) (by decide)
  refine ⟨by decide, by decide, by decide, h.2.2.2.2 (by decide), ?_⟩
  rw [h.2.2.1]
  decide

/-! ## C9: the prompt of a second turn -/

theorem formatSpec_two_turns (a r b : String) :
    formatSpec [⟨strdup "user", strdup a⟩, ⟨strdup "assistant", strdup r⟩,
        ⟨strdup "user", strdup b⟩]
      = "User: " ++ c_str a ++ "\n\nAssistant: " ++ c_str r ++ "\n\nUser: " ++ c_str b
          ++ "\n\nAssistant: " := by
  have hu : (strdup "user").val = "user" := by decide
  have ha : (strdup "assistant").val = "assistant" := by decide
  have l1 : roleLabel "user" = some "User" := by decide
  have l2 : roleLabel "assistant" = some "Assistant" := by decide
  have j1 : ("\n\n" : String) ++ "Assistant: " = "\n\nAssistant: " := by decide
  have j2 : ("\n\n" : String) ++ "User: " = "\n\nUser: " := by decide
  have j3 : ("Assistant" : String) ++ ": " = "Assistant: " := by decide
  have j4 : ("User" : String) ++ ": " = "User: " := by decide
  have v : ∀ x : String, (strdup x).val = c_str x := fun _ => rfl
  simp only [formatSpec, List.map_cons, List.map_nil, concatAll, formatMessage, hu, ha, l1, l2,
    v, j3, j4, String.append_empty]
  simp only [String.append_assoc]
  rw [← j1, ← j2]
  simp only [String.append_assoc]

/-- C9, as stated, fails.  First, when the first call that returns `[EOG]` is
a call that generated the piece `[EOG]`, no assistant message stands between
the two user messages.  Second, a NUL character in the first query cuts the
stored message, and the second prompt holds only the text before it. -/
theorem second_turn_history_differs :
    ((completionLoops charEngine [⟨0, 67⟩, ⟨0, 1000⟩]
          (startCompletion charEngine "one" loaded)).1
        = [Except.ok "C", Except.ok "[EOG]"]
      ∧ texts (startCompletion charEngine "two"
          (completionLoops charEngine [⟨0, 67⟩, ⟨0, 1000⟩]
            (startCompletion charEngine "one" loaded)).2)._messages
        = [("user", "one"), ("user", "two")])
    ∧ (texts (startCompletion charEngine "two"
          (turn charEngine ("on" ++ chr 0 ++ "e") [⟨0, 67⟩] ⟨0, 2⟩ loaded))._messages
        = [("user", "on"), ("assistant", "C"), ("user", "two")]
      ∧ buildPrompt (startCompletion charEngine "two"
          (turn charEngine ("on" ++ chr 0 ++ "e") [⟨0, 67⟩] ⟨0, 2⟩ loaded))._messages
        = "User: on\n\nAssistant: C\n\nUser: two\n\nAssistant: "
      ∧ "on" ≠ "on" ++ chr 0 ++ "e") := by
  refine ⟨⟨rfl, by decide⟩, by decide, by decide, by decide⟩

/-- C9 (amended): from an empty history, after `startCompletion(q1)`,
`completionLoop` calls that each generate a piece, a call that ends the turn,
and `startCompletion(q2)`, the history is `[(user, q1), (assistant, r),
(user, q2)]` and the prompt handed to the tokenizer is `User: q1`, blank line,
`Assistant: r`, blank line, `User: q2`, blank line, `Assistant: `, where `r`
is the concatenation of the pieces returned and each of `q1`, `r`, `q2` is cut
at its first NUL character (unchanged when it has none). -/
theorem second_turn_prompt (e : Engine) (q1 q2 : String) (os : List Outcome) (last : Outcome)
    (s : LLMInference) (hempty : s._messages = [])
    (hgen : generatingRun e os (startCompletion e q1 s))
    (hterm : terminatesTurn e last (completionLoops e os (startCompletion e q1 s)).2) :
    (completionLoops e os (startCompletion e q1 s)).1 = (pieces e os).map Except.ok
    ∧ (startCompletion e q2 (turn e q1 os last s))._messages
        = [⟨strdup "user", strdup q1⟩,
           ⟨strdup "assistant", strdup (concatAll (pieces e os))⟩,
           ⟨strdup "user", strdup q2⟩]
    ∧ texts (startCompletion e q2 (turn e q1 os last s))._messages
        = [("user", c_str q1), ("assistant", c_str (concatAll (pieces e os))),
           ("user", c_str q2)]
    ∧ (NUL ∉ q1.data → NUL ∉ (concatAll (pieces e os)).data → NUL ∉ q2.data →
        c_str q1 = q1 ∧ c_str (concatAll (pieces e os)) = concatAll (pieces e os)
        ∧ c_str q2 = q2)
    ∧ (startCompletion e q2 (turn e q1 os last s))._promptTokens
        = e.tokenize ("User: " ++ c_str q1 ++ "\n\nAssistant: "
            ++ c_str (concatAll (pieces e os)) ++ "\n\nUser: " ++ c_str q2
            ++ "\n\nAssistant: ")
    ∧ Event.tokenize ("User: " ++ c_str q1 ++ "\n\nAssistant: "
            ++ c_str (concatAll (pieces e os)) ++ "\n\nUser: " ++ c_str q2
            ++ "\n\nAssistant: ")
        ∈ ((startCompletion e q2 (turn e q1 os last s)).trace.drop
            (turn e q1 os last s).trace.length) := by
  have hm : (startCompletion e q2 (turn e q1 os last s))._messages
      = [⟨strdup "user", strdup q1⟩,
         ⟨strdup "assistant", strdup (concatAll (pieces e os))⟩,
         ⟨strdup "user", strdup q2⟩] := by
    rw [startCompletion_messages, turn_messages e q1 os last s hgen hterm, hempty]
    rfl
  have hu : (strdup "user").val = "user" := by decide
  have ha : (strdup "assistant").val = "assistant" := by decide
  have hp : buildPrompt (startCompletion e q2 (turn e q1 os last s))._messages
      = "User: " ++ c_str q1 ++ "\n\nAssistant: "
          ++ c_str (concatAll (pieces e os)) ++ "\n\nUser: " ++ c_str q2
          ++ "\n\nAssistant: " := by
    rw [hm, buildPrompt_eq_formatSpec, formatSpec_two_turns]
  refine ⟨(completionLoops_generating e os _ hgen).1, hm, ?_,
    fun n1 n2 n3 => ⟨c_str_eq_self _ n1, c_str_eq_self _ n2, c_str_eq_self _ n3⟩, ?_, ?_⟩
  · rw [hm]
    simp only [texts, List.map_cons, List.map_nil, hu, ha]
    rfl
  · rw [← hp]
    rfl
  · rw [← hp]
    have ht : (startCompletion e q2 (turn e q1 os last s)).trace
        = (turn e q1 os last s).trace
          ++ [Event.tokenize (buildPrompt (startCompletion e q2 (turn e q1 os last s))._messages),
              Event.batch_init (turn e q1 os last s).allocs
                (e.tokenize
                  (buildPrompt (startCompletion e q2 (turn e q1 os last s))._messages)).length] := by
      show _ ++ [_] ++ [_] = _
      rw [List.append_assoc]
      rfl
    rw [ht, List.drop_left]
    exact List.mem_cons_self _ _

theorem second_turn_prompt_witness :
    loaded._messages = []
    ∧ generatingRun charEngine [⟨0, 67⟩, ⟨0, 68⟩] (startCompletion charEngine "one" loaded)
    ∧ terminatesTurn charEngine ⟨0, 2⟩
        (completionLoops charEngine [⟨0, 67⟩, ⟨0, 68⟩]
          (startCompletion charEngine "one" loaded)).2
    ∧ NUL ∉ "one".data
    ∧ NUL ∉ (concatAll (pieces charEngine [⟨0, 67⟩, ⟨0, 68⟩])).data
    ∧ NUL ∉ "two".data
    ∧ c_str "one" = "one"
    ∧ texts (startCompletion charEngine "two"
          (turn charEngine "one" [⟨0, 67⟩, ⟨0, 68⟩] ⟨0, 2⟩ loaded))._messages
        = [("user", "one"), ("assistant", "CD"), ("user", "two")] := by
  have h := second_turn_prompt charEngine "one" "two" [⟨0, 67⟩, ⟨0, 68⟩] ⟨0, 2⟩ loaded rfl
    (by decide) (by decide)
  refine ⟨rfl, by decide, by decide, by decide, by decide, by decide,
    (h.2.2.2.1 (by decide) (by decide) (by decide)).1, ?_⟩
  rw [h.2.2.1]
  decide

/-! ## C5: the ledger of batches over a two-turn conversation -/

theorem startCompletion_ledger (e : Engine) (q : String) (s : LLMInference) :
    allocated (startCompletion e q s).trace = allocated s.trace ++ [s.allocs]
    ∧ freed (startCompletion e q s).trace = freed s.trace := by
  have ht : (startCompletion e q s).trace
      = s.trace ++ [Event.tokenize (buildPrompt (s._messages ++ [⟨strdup "user", strdup q⟩])),
          Event.batch_init s.allocs
            (e.tokenize (buildPrompt (s._messages ++ [⟨strdup "user", strdup q⟩]))).length] := by
    show s.trace ++ [_] ++ [_] = _
    rw [List.append_assoc]
    rfl
  rw [ht]
  simp [allocated, freed]

/-- C5 fails on the code: in the two-turn conversation `loadModel`,
`startCompletion("Hi")`, `completionLoop()` (a piece), `completionLoop()`
(end of generation), `startCompletion("Bye")`, three batches are allocated and
only the first is freed (by the step that replaced it); the second
`startCompletion` overwrites the held batch 1 without freeing it, so two
batches are live, and a later `stopCompletion` frees only batch 2. -/
theorem startCompletion_leaks_held_batch :
    allocated (calls charEngine
        [Call.startCompletion "Hi", Call.completionLoop ⟨0, 65⟩, Call.completionLoop ⟨0, 2⟩,
         Call.startCompletion "Bye"] loaded).trace = [0, 1, 2]
    ∧ freed (calls charEngine
        [Call.startCompletion "Hi", Call.completionLoop ⟨0, 65⟩, Call.completionLoop ⟨0, 2⟩,
         Call.startCompletion "Bye"] loaded).trace = [0]
    ∧ liveBatches (calls charEngine
        [Call.startCompletion "Hi", Call.completionLoop ⟨0, 65⟩, Call.completionLoop ⟨0, 2⟩,
         Call.startCompletion "Bye"] loaded).trace = [1, 2]
    ∧ (calls charEngine
        [Call.startCompletion "Hi", Call.completionLoop ⟨0, 65⟩, Call.completionLoop ⟨0, 2⟩,
         Call.startCompletion "Bye"] loaded)._batch.handle = some 2
    ∧ liveBatches (calls charEngine
        [Call.startCompletion "Hi", Call.completionLoop ⟨0, 65⟩, Call.completionLoop ⟨0, 2⟩,
         Call.startCompletion "Bye", Call.stopCompletion] loaded).trace = [1] := by
  refine ⟨?_, ?_, ?_, ?_, ?_⟩ <;> decide

end LLM
